import Mathlib

/-!
Verification of the `Instant` timestamp type from `src/time.rs`.

The Rust type is `pub struct Instant(pub(crate) u128)`, a nanosecond counter,
composed with `std::time::Duration` (seconds `u64` + sub-second nanoseconds
`u32 < 10^9`).  Machine integers are embedded as `Nat`; the lossy
`as u64` cast is an explicit `% 2 ^ 64`; the panicking unsigned
subtraction/addition on the `u128` counter is embedded as checked arithmetic
returning `Option` (`none` on underflow/overflow).
-/

namespace RppalTime

/-- Embedding of `std::time::Duration`: `secs : u64`, `nanos : u32` with
`nanos < 10^9`.  The representation invariant is `Duration.WF`. -/
structure Duration where
  secs : Nat
  nanos : Nat
deriving DecidableEq

/-- Representation invariant of a Rust `Duration` value. -/
def Duration.WF (d : Duration) : Prop :=
  d.secs < 2 ^ 64 ∧ d.nanos < 1000000000

/-- Embedding of `Duration::as_nanos`: total nanosecond count,
`secs * 10^9 + nanos` (a `u128` in Rust, here a `Nat`). -/
def Duration.as_nanos (d : Duration) : Nat :=
  d.secs * 1000000000 + d.nanos

/-- Embedding of `Duration::from_nanos(n: u64)`: splits a 64-bit nanosecond
count into seconds and sub-second nanoseconds. -/
def Duration.from_nanos (n : Nat) : Duration :=
  ⟨n / 1000000000, n % 1000000000⟩

/-- Embedding of `pub struct Instant(pub(crate) u128)` from `src/time.rs`. -/
structure Instant where
  counter : Nat
deriving DecidableEq

/-- Representation invariant of the `u128` counter. -/
def Instant.WF (a : Instant) : Prop :=
  a.counter < 2 ^ 128

/-- Checked `u128` subtraction: Rust `a - b` on unsigned integers fails
(panics) on underflow, so the embedding returns `none` there. -/
def u128_sub (a b : Nat) : Option Nat :=
  if b ≤ a then some (a - b) else none

/-- Checked `u128` addition: fails (panics) when the sum leaves the
128-bit range. -/
def u128_add (a b : Nat) : Option Nat :=
  if a + b < 2 ^ 128 then some (a + b) else none

/-- Embedding of `Instant::duration_since`:
`Duration::from_nanos((self.0 - earlier.0) as u64)`.  The `u128`
subtraction is checked; the `as u64` cast truncates modulo `2 ^ 64`. -/
def Instant.duration_since (self earlier : Instant) : Option Duration :=
  (u128_sub self.counter earlier.counter).map
    (fun d => Duration.from_nanos (d % 2 ^ 64))

/-- Embedding of `Instant::into_inner`: returns the raw counter. -/
def Instant.into_inner (self : Instant) : Nat :=
  self.counter

/-- Embedding of `impl ops::Add<Duration> for Instant`:
`Instant(self.0 + rhs.as_nanos())`. -/
def Instant.add (self : Instant) (rhs : Duration) : Option Instant :=
  (u128_add self.counter rhs.as_nanos).map Instant.mk

/-- Embedding of `impl ops::AddAssign<Duration> for Instant`:
`*self = *self + rhs`; the result is the variable's new value. -/
def Instant.add_assign (self : Instant) (rhs : Duration) : Option Instant :=
  self.add rhs

/-- Embedding of `impl ops::Sub for Instant` (Instant minus Instant):
`self.duration_since(rhs)`. -/
def Instant.sub_instant (self rhs : Instant) : Option Duration :=
  self.duration_since rhs

/-- Embedding of `impl ops::Sub<Duration> for Instant`:
`Instant(self.0 - rhs.as_nanos())`. -/
def Instant.sub_duration (self : Instant) (rhs : Duration) : Option Instant :=
  (u128_sub self.counter rhs.as_nanos).map Instant.mk

/-- Embedding of `impl ops::SubAssign<Duration> for Instant`:
`*self = *self - rhs`; the result is the variable's new value. -/
def Instant.sub_assign (self : Instant) (rhs : Duration) : Option Instant :=
  self.sub_duration rhs

/-- The derived `PartialOrd`/`Ord` on the one-field struct compares the
`u128` counter. -/
def Instant.lt (a b : Instant) : Prop :=
  a.counter < b.counter

/-- Derived non-strict order on `Instant`. -/
def Instant.le (a b : Instant) : Prop :=
  a.counter ≤ b.counter

instance : LT Instant := ⟨Instant.lt⟩

instance : LE Instant := ⟨Instant.le⟩

instance (a b : Instant) : Decidable (a < b) :=
  inferInstanceAs (Decidable (a.counter < b.counter))

instance (a b : Instant) : Decidable (a ≤ b) :=
  inferInstanceAs (Decidable (a.counter ≤ b.counter))

instance (a : Instant) : Decidable a.WF :=
  inferInstanceAs (Decidable (a.counter < 2 ^ 128))

/-- A store of `Instant` variables, used to state the frame property of
the in-place compound operators. -/
def Store : Type := Nat → Instant

/-- Replace the value held by variable `i`. -/
def Store.update (s : Store) (i : Nat) (v : Instant) : Store :=
  fun j => if j = i then v else s j

/-- Running `vars[i] += d`: variable `i` is replaced by the result of
`add_assign`; the store is unchanged otherwise. -/
def runAddAssign (s : Store) (i : Nat) (d : Duration) : Option Store :=
  ((s i).add_assign d).map (fun v => s.update i v)

/-- Running `vars[i] -= d`: variable `i` is replaced by the result of
`sub_assign`; the store is unchanged otherwise. -/
def runSubAssign (s : Store) (i : Nat) (d : Duration) : Option Store :=
  ((s i).sub_assign d).map (fun v => s.update i v)

/-- Reconstructing a `Duration` from a nanosecond count is exact. -/
theorem as_nanos_from_nanos (n : Nat) :
    (Duration.from_nanos n).as_nanos = n := by
  simp only [Duration.from_nanos, Duration.as_nanos]
  rw [Nat.mul_comm]
  exact Nat.div_add_mod n 1000000000

/-- C1: for instants `a`, `b` with `b.counter ≤ a.counter` and a difference
within the 64-bit nanosecond range, `a.duration_since b` succeeds and the
returned Duration's nanosecond value is exactly `a.counter - b.counter`. -/
theorem duration_since_exact (a b : Instant)
    (h : b.counter ≤ a.counter) (h64 : a.counter - b.counter < 2 ^ 64) :
    a.duration_since b = some (Duration.from_nanos (a.counter - b.counter)) ∧
    (Duration.from_nanos (a.counter - b.counter)).as_nanos =
      a.counter - b.counter := by
  constructor
  · simp only [Instant.duration_since, u128_sub, if_pos h, Option.map_some']
    rw [Nat.mod_eq_of_lt h64]
  · exact as_nanos_from_nanos _

/-- Witness for C1 at counters 300 and 100. -/
theorem duration_since_exact_witness :
    (Instant.mk 300).duration_since (Instant.mk 100) =
      some (Duration.from_nanos 200) ∧
    (Duration.from_nanos 200).as_nanos = 200 :=
  duration_since_exact (Instant.mk 300) (Instant.mk 100)
    (by decide) (by decide)

/-- C2: the only failure mode of the Instant operations is counter
underflow/overflow: `duration_since` (and the Instant-minus-Instant
operator) fails exactly when the precondition is violated, Instant minus
Duration fails exactly when the duration's nanosecond equivalent exceeds
the counter, and addition fails exactly when the counter leaves the
128-bit range. -/
theorem failure_modes (a b : Instant) (d : Duration) :
    (a.duration_since b = none ↔ a.counter < b.counter) ∧
    (a.sub_instant b = none ↔ a.counter < b.counter) ∧
    (a.sub_duration d = none ↔ a.counter < d.as_nanos) ∧
    (a.add d = none ↔ 2 ^ 128 ≤ a.counter + d.as_nanos) := by
  refine ⟨?_, ?_, ?_, ?_⟩
  · simp only [Instant.duration_since, u128_sub]
    split <;> simp <;> omega
  · simp only [Instant.sub_instant, Instant.duration_since, u128_sub]
    split <;> simp <;> omega
  · simp only [Instant.sub_duration, u128_sub]
    split <;> simp <;> omega
  · simp only [Instant.add, u128_add]
    split <;> simp <;> omega

/-- C3: round trip. Under the `u128` range invariant on `a`, whenever
`a + d` succeeds, subtracting `d` from the result gives back `a`, and
whenever `a - d` succeeds, adding `d` to the result gives back `a`. -/
theorem add_sub_round_trip (a b c : Instant) (d : Duration)
    (hw : a.WF) :
    (a.add d = some b → b.sub_duration d = some a) ∧
    (a.sub_duration d = some c → c.add d = some a) := by
  constructor
  · intro hab
    simp only [Instant.add, u128_add] at hab
    split at hab
    · simp only [Option.map_some', Option.some_inj] at hab
      subst hab
      simp only [Instant.sub_duration, u128_sub, Nat.le_add_left, if_pos,
        Nat.add_sub_cancel, Option.map_some']
    · simp at hab
  · intro hac
    simp only [Instant.sub_duration, u128_sub] at hac
    split at hac
    · simp only [Option.map_some', Option.some_inj] at hac
      subst hac
      have hle : d.as_nanos ≤ a.counter := by omega
      simp only [Instant.add, u128_add]
      have hw' : a.counter < 2 ^ 128 := hw
      rw [Nat.sub_add_cancel hle, if_pos hw']
      rfl
    · simp at hac

/-- Witness for C3 at counter 100 and a 200 ns duration: adding then
subtracting, and subtracting after adding, both return to the start. -/
theorem add_sub_round_trip_witness :
    (Instant.mk 300).sub_duration (Duration.from_nanos 200) =
      some (Instant.mk 100) ∧
    (Instant.mk 100).add (Duration.from_nanos 200) =
      some (Instant.mk 300) := by
  constructor
  · exact (add_sub_round_trip (Instant.mk 100) (Instant.mk 300)
      (Instant.mk 100) (Duration.from_nanos 200) (by decide)).1 (by decide)
  · exact (add_sub_round_trip (Instant.mk 300) (Instant.mk 300)
      (Instant.mk 100) (Duration.from_nanos 200) (by decide)).2 (by decide)

/-- C4: order-monotonic arithmetic. For a duration with non-zero
nanosecond value, a successful addition strictly increases the instant and
a successful subtraction strictly decreases it. -/
theorem arith_monotonic (a b c : Instant) (d : Duration)
    (hd : d.as_nanos ≠ 0) :
    (a.add d = some b → a < b) ∧
    (a.sub_duration d = some c → c < a) := by
  constructor
  · intro hab
    simp only [Instant.add, u128_add] at hab
    split at hab
    · simp only [Option.map_some', Option.some_inj] at hab
      subst hab
      show a.counter < a.counter + d.as_nanos
      omega
    · simp at hab
  · intro hac
    simp only [Instant.sub_duration, u128_sub] at hac
    split at hac
    · simp only [Option.map_some', Option.some_inj] at hac
      subst hac
      show a.counter - d.as_nanos < a.counter
      omega
    · simp at hac

/-- Witness for C4 at counter 300 and a 200 ns duration. -/
theorem arith_monotonic_witness :
    Instant.mk 300 < Instant.mk 500 ∧ Instant.mk 100 < Instant.mk 300 := by
  constructor
  · exact (arith_monotonic (Instant.mk 300) (Instant.mk 500)
      (Instant.mk 100) (Duration.from_nanos 200) (by decide)).1 (by decide)
  · exact (arith_monotonic (Instant.mk 300) (Instant.mk 500)
      (Instant.mk 100) (Duration.from_nanos 200) (by decide)).2 (by decide)

/-- C5: for instants `a ≥ b`, the operator form `a - b` returns exactly
the same Duration as `a.duration_since b` (in the source, `sub` simply
calls `duration_since`). -/
theorem sub_eq_duration_since (a b : Instant) (h : b ≤ a) :
    a.sub_instant b = a.duration_since b :=
  rfl

/-- Witness for C5 at counters 300 and 100. -/
theorem sub_eq_duration_since_witness :
    (Instant.mk 300).sub_instant (Instant.mk 100) =
      (Instant.mk 300).duration_since (Instant.mk 100) :=
  sub_eq_duration_since (Instant.mk 300) (Instant.mk 100) (by decide)

/-- C6: ordering and equality of instants coincide with the numeric order
of the counter: `a < b` iff the counters compare so, `a = b` iff the
counters are equal, the order is total, and equality is reflexive. -/
theorem order_matches_counter (a b : Instant) :
    (a < b ↔ a.counter < b.counter) ∧
    (a = b ↔ a.counter = b.counter) ∧
    (a ≤ b ∨ b ≤ a) ∧
    a = a := by
  refine ⟨Iff.rfl, ?_, ?_, rfl⟩
  · constructor
    · intro h
      rw [h]
    · intro h
      cases a
      cases b
      simp only at h
      rw [h]
  · show a.counter ≤ b.counter ∨ b.counter ≤ a.counter
    omega

/-- C7: subtracting a Duration whose nanosecond value equals the instant's
own counter yields the zero instant. -/
theorem sub_own_counter_eq_zero (a : Instant) (d : Duration)
    (h : d.as_nanos = a.counter) :
    a.sub_duration d = some (Instant.mk 0) := by
  simp only [Instant.sub_duration, u128_sub, h, le_refl, if_pos,
    Nat.sub_self, Option.map_some']

/-- Witness for C7 at counter 100. -/
theorem sub_own_counter_eq_zero_witness :
    (Instant.mk 100).sub_duration (Duration.from_nanos 100) =
      some (Instant.mk 0) :=
  sub_own_counter_eq_zero (Instant.mk 100) (Duration.from_nanos 100)
    (by decide)

/-- C8: the compound in-place operators are exactly the in-place forms of
the binary operators, and replace only the variable operated on: after
`vars[i] += d` (resp. `-=`), variable `i` holds `old + d` (resp.
`old - d`) and every other variable `j ≠ i` is unchanged. -/
theorem assign_frame (s : Store) (i j : Nat) (d : Duration)
    (sA sS : Store)
    (hA : runAddAssign s i d = some sA)
    (hS : runSubAssign s i d = some sS)
    (hj : j ≠ i) :
    (s i).add d = some (sA i) ∧
    (s i).sub_duration d = some (sS i) ∧
    sA j = s j ∧ sS j = s j := by
  simp only [runAddAssign, Instant.add_assign] at hA
  simp only [runSubAssign, Instant.sub_assign] at hS
  cases hadd : (s i).add d with
  | none => rw [hadd] at hA; simp at hA
  | some v =>
    rw [hadd] at hA
    simp only [Option.map_some', Option.some_inj] at hA
    cases hsub : (s i).sub_duration d with
    | none => rw [hsub] at hS; simp at hS
    | some w =>
      rw [hsub] at hS
      simp only [Option.map_some', Option.some_inj] at hS
      subst hA
      subst hS
      refine ⟨?_, ?_, ?_, ?_⟩
      · simp [Store.update]
      · simp [Store.update]
      · simp [Store.update, hj]
      · simp [Store.update, hj]

/-- Concrete store used in the C8 witness: every variable holds
counter 300. -/
def w8_s : Store := fun _ => Instant.mk 300

/-- Store after `w8_s[0] += 200ns`. -/
def w8_sA : Store := w8_s.update 0 (Instant.mk 500)

/-- Store after `w8_s[0] -= 200ns`. -/
def w8_sS : Store := w8_s.update 0 (Instant.mk 100)

/-- Witness for C8: variable 0 of the concrete store is updated by the
compound operators and variable 1 is untouched. -/
theorem assign_frame_witness :
    (w8_s 0).add (Duration.from_nanos 200) = some (w8_sA 0) ∧
    (w8_s 0).sub_duration (Duration.from_nanos 200) = some (w8_sS 0) ∧
    w8_sA 1 = w8_s 1 ∧ w8_sS 1 = w8_s 1 :=
  assign_frame w8_s 0 1 (Duration.from_nanos 200) w8_sA w8_sS
    rfl rfl (by decide)

/-- C9: the concrete scenario of the source's test
`test_instance_duration_interplay`: counters 100 and 300 with a 200 ns
duration, exercising `duration_since`, both subtraction forms, addition
and the compound operators. -/
theorem concrete_scenario :
    (Instant.mk 300).duration_since (Instant.mk 100) =
      some (Duration.from_nanos 200) ∧
    (Instant.mk 300).sub_instant (Instant.mk 100) =
      some (Duration.from_nanos 200) ∧
    (Instant.mk 100).add (Duration.from_nanos 200) = some (Instant.mk 300) ∧
    (Instant.mk 300).sub_duration (Duration.from_nanos 200) =
      some (Instant.mk 100) ∧
    (Instant.mk 100).add_assign (Duration.from_nanos 200) =
      some (Instant.mk 300) ∧
    (Instant.mk 300).sub_assign (Duration.from_nanos 200) =
      some (Instant.mk 100) := by
  decide

/-- C10: when the counter difference is at least `2 ^ 64`,
`duration_since` still succeeds (no error, no saturation) and the
returned Duration's nanosecond value is the difference reduced modulo
`2 ^ 64`. -/
theorem duration_since_truncates (a b : Instant)
    (h : b.counter ≤ a.counter) (h64 : 2 ^ 64 ≤ a.counter - b.counter) :
    a.duration_since b =
      some (Duration.from_nanos ((a.counter - b.counter) % 2 ^ 64)) ∧
    (Duration.from_nanos ((a.counter - b.counter) % 2 ^ 64)).as_nanos =
      (a.counter - b.counter) % 2 ^ 64 := by
  constructor
  · simp only [Instant.duration_since, u128_sub, if_pos h, Option.map_some']
  · exact as_nanos_from_nanos _

/-- Witness for C10: counters `2 ^ 64 + 3` and `1`; the difference
`2 ^ 64 + 2` truncates to `2` nanoseconds. -/
theorem duration_since_truncates_witness :
    (Instant.mk (2 ^ 64 + 3)).duration_since (Instant.mk 1) =
      some (Duration.from_nanos ((2 ^ 64 + 3 - 1) % 2 ^ 64)) ∧
    (Duration.from_nanos ((2 ^ 64 + 3 - 1) % 2 ^ 64)).as_nanos =
      (2 ^ 64 + 3 - 1) % 2 ^ 64 :=
  duration_since_truncates (Instant.mk (2 ^ 64 + 3)) (Instant.mk 1)
    (by decide) (by decide)

end RppalTime
